import Mathlib

/-!
Verification of the timer scheduler in `src/scheduler/default.go` of
NanaShake/mcbeam-plus.

The Go code is shallowly embedded: `sync.Map` becomes an association list with
integer keys, the two bounded channels become lists together with the capacity
`timerBacklog`, Go `int64` values become `Int`, and the only side effects the
claims talk about (callback invocation and the panic-recovery log in `pexec`)
become an explicit event trace returned by the scan.  User callbacks are
modelled by their observable behaviour: they either return normally or panic
with a value (`FuncBehavior`); a `nil` Go function panics when called.
-/

namespace Scheduler

/-- Modelled from the spec: the sentinel counter value `LoopForever` (−1).  Its
definition lives in the scheduler package outside the provided sources; the spec
fixes it to −1 ("Sentinel value `LoopForever` (use −1) means unbounded"). -/
def LoopForever : Int := -1

/-- Modelled from the spec: the error values `constants.ErrTimerNotFound`
("`ErrNotFound` — `RemoveTimer` on unknown id") and
`constants.ErrCloseClosedTimer` ("`ErrAlreadyClosed` — `RemoveTimer` on a timer
already marked closed"); the `constants` package is not among the provided
sources. -/
inductive SchedErr
  | ErrTimerNotFound
  | ErrCloseClosedTimer
deriving DecidableEq, Repr

/-- A Go runtime fault observable at the scheduler surface. -/
inductive GoPanic
  | closeOfClosedChannel
deriving DecidableEq, Repr

/-- Observable behaviour of a user callback (`Func`): it either returns
normally or panics with a value (panic values are abstracted to `Nat`). -/
inductive FuncBehavior
  | ok
  | panics (v : Nat)
deriving DecidableEq, Repr

/-- Calling a Go function value: `none` is a nil function, whose call panics
(panic value abstracted as 0); otherwise the behaviour is as declared.
Returns `some v` when the call panics with `v`, `none` on normal return. -/
def callFunc : Option FuncBehavior → Option Nat
  | none => some 0
  | some .ok => none
  | some (.panics v) => some v

/-- One line written by the logger from inside `pexec`: the timer id and the
recovered failure value. -/
structure LogEntry where
  timerId : Int
  failure : Nat
deriving DecidableEq, Repr

/-- `pexec(id, fn)`: execute the job function with protection.  A panic from
`fn` is recovered and logged with the timer id and the failure value; `pexec`
always returns normally.  The result is the log entry written, if any. -/
def pexec (id : Int) (fn : Option FuncBehavior) : Option LogEntry :=
  match callFunc fn with
  | none => none
  | some v => some ⟨id, v⟩

/-- One callback invocation performed by a scan: the timer id it was invoked
under and the log entry `pexec` produced for it (present exactly when the
callback panicked). -/
structure FireEvent where
  timerId : Int
  log : Option LogEntry
deriving DecidableEq, Repr

/-- `TimerOptions` of `src/scheduler/default.go` (declared in the scheduler
package; the fields are exactly the ones `default.go` reads:
`Fn`, `Interval`, `Counter`, `Condition`).  `Interval` is a `time.Duration`
in nanoseconds, `Condition` an optional predicate over the current wall time. -/
structure TimerOptions where
  Fn : Option FuncBehavior
  Interval : Int
  Counter : Int
  Condition : Option (Int → Bool)

/-- `Timer` of `src/scheduler/default.go`: one scheduled job.  `closed` is the
`int32` flag accessed atomically (`> 0` means closed). -/
structure Timer where
  opts : TimerOptions
  id : Int
  createAt : Int
  elapse : Int
  closed : Int

/-- A `TimerOption` is a mutator of `TimerOptions` (Go: `func(*TimerOptions)`). -/
def TimerOption : Type := TimerOptions → TimerOptions

/-- Modelled from the spec: the builder option `WithCounter(n)` (the options
file is not among the provided sources). -/
def WithCounter (n : Int) : TimerOption := fun o => { o with Counter := n }

/-- Modelled from the spec: the builder option `WithCondition(predicate)` (the
options file is not among the provided sources). -/
def WithCondition (c : Int → Bool) : TimerOption := fun o => { o with Condition := some c }

/-- Applying the variadic options in order: `for _, o := range opt { o(&t.opts) }`. -/
def applyOpts (opt : List TimerOption) (o : TimerOptions) : TimerOptions :=
  opt.foldl (fun acc f => f acc) o

/-- `DefaultScheduler`: the association list `timers` models the `sync.Map`,
the two lists model the contents of the bounded channels (capacity
`timerBacklog`), and `exit` records whether the exit channel has been closed. -/
structure DefaultScheduler where
  timerBacklog : Nat
  incrementID : Int
  timers : List (Int × Timer)
  ChClosingTimer : List Int
  ChCreatedTimer : List Timer
  exit : Bool

/-- `sync.Map.Load`. -/
def findTimer (id : Int) : List (Int × Timer) → Option Timer
  | [] => none
  | (k, u) :: rest => if k = id then some u else findTimer id rest

/-- `sync.Map.Store`. -/
def storeTimer (id : Int) (t : Timer) : List (Int × Timer) → List (Int × Timer)
  | [] => [(id, t)]
  | (k, u) :: rest => if k = id then (id, t) :: rest else (k, u) :: storeTimer id t rest

/-- `sync.Map.Delete` (a no-op on an absent key). -/
def deleteTimer (id : Int) : List (Int × Timer) → List (Int × Timer)
  | [] => []
  | (k, u) :: rest => if k = id then deleteTimer id rest else (k, u) :: deleteTimer id rest

/-- `DefaultScheduler.stopTimer`: if the timer is already closed, fail with
`ErrCloseClosedTimer`; otherwise, if the closing channel has free capacity,
enqueue the timer id and set `closed`; otherwise (bounded degradation) set
`options.Counter = 0` so the next `Cron` retires it.  Acts on the record and
the closing-channel contents; returns the updated record, channel and result. -/
def stopTimer (backlog : Nat) (ch : List Int) (t : Timer) :
    Timer × List Int × Except SchedErr Unit :=
  if t.closed > 0 then
    (t, ch, .error .ErrCloseClosedTimer)
  else if ch.length < backlog then
    ({ t with closed := 1 }, ch ++ [t.id], .ok ())
  else
    ({ t with opts := { t.opts with Counter := 0 } }, ch, .ok ())

/-- `DefaultScheduler.NewTimer`: allocate a fresh id, build the record with
`elapse` initialised to `interval` and `Counter` defaulting to `LoopForever`,
apply the options, and enqueue the record on the creation channel (the Go send
blocks until capacity frees, so it always eventually enqueues).  Returns the
new state and the id; there is no error result. -/
def NewTimer (s : DefaultScheduler) (nowNs : Int) (interval : Int)
    (fn : Option FuncBehavior) (opt : List TimerOption) : DefaultScheduler × Int :=
  let id := s.incrementID + 1
  let t : Timer :=
    { opts := applyOpts opt
        { Fn := fn, Interval := interval, Counter := LoopForever, Condition := none },
      id := id, createAt := nowNs, elapse := interval, closed := 0 }
  ({ s with incrementID := id, ChCreatedTimer := s.ChCreatedTimer ++ [t] }, id)

/-- `DefaultScheduler.RemoveTimer`: look the id up in the timer set (absent →
`ErrTimerNotFound`), then `stopTimer` the record (the map holds a pointer, so
the mutation is visible in the set). -/
def RemoveTimer (s : DefaultScheduler) (id : Int) :
    DefaultScheduler × Except SchedErr Unit :=
  match findTimer id s.timers with
  | none => (s, .error .ErrTimerNotFound)
  | some t =>
      let r := stopTimer s.timerBacklog s.ChClosingTimer t
      ({ s with timers := storeTimer id r.1 s.timers, ChClosingTimer := r.2.1 }, r.2.2)

/-- `DefaultScheduler.Stop`: `close(d.exit)`.  Closing an already-closed Go
channel panics. -/
def Stop (s : DefaultScheduler) : Except GoPanic DefaultScheduler :=
  if s.exit then .error .closeOfClosedChannel
  else .ok { s with exit := true }

/-- The body of `Cron`'s `Range` closure for one record (map key `key`,
record `t`), threading the closing-channel contents `ch`: the `Counter == 0`
branch opportunistically calls `stopTimer` only when the channel has free
capacity; the condition branch fires when the predicate holds; the interval
branch fires when `createAt + elapse <= now`, then advances `elapse` by
`Interval` and decrements a finite positive `Counter`.  Returns the updated
record, the updated channel, and the invocation event if the callback ran. -/
def cronStep (backlog : Nat) (now : Int) (ch : List Int) (key : Int) (t : Timer) :
    Timer × List Int × Option FireEvent :=
  if t.opts.Counter = 0 then
    if ch.length < backlog then
      let r := stopTimer backlog ch t
      (r.1, r.2.1, none)
    else
      (t, ch, none)
  else
    match t.opts.Condition with
    | some cond =>
        if cond now then (t, ch, some ⟨key, pexec key t.opts.Fn⟩)
        else (t, ch, none)
    | none =>
        if t.createAt + t.elapse ≤ now then
          let t1 := { t with elapse := t.elapse + t.opts.Interval }
          let t2 :=
            if t1.opts.Counter ≠ LoopForever ∧ t1.opts.Counter > 0 then
              { t1 with opts := { t1.opts with Counter := t1.opts.Counter - 1 } }
            else t1
          (t2, ch, some ⟨key, pexec key t.opts.Fn⟩)
        else
          (t, ch, none)

/-- `Cron`'s `Range` over the timer set: every entry is visited once, in list
order, threading the closing channel; the events of all invoked callbacks are
collected in visit order.  `Range` never removes entries, it only mutates the
records in place. -/
def cronList (backlog : Nat) (now : Int) :
    List (Int × Timer) → List Int → List (Int × Timer) × List Int × List FireEvent
  | [], ch => ([], ch, [])
  | (key, t) :: rest, ch =>
      let r := cronStep backlog now ch key t
      let rr := cronList backlog now rest r.2.1
      ((key, r.1) :: rr.1, rr.2.1, (r.2.2.toList) ++ rr.2.2)

/-- `DefaultScheduler.Cron` at wall-clock instant `now` (nanoseconds):
one scan of the timer set. -/
def Cron (s : DefaultScheduler) (now : Int) : DefaultScheduler × List FireEvent :=
  let r := cronList s.timerBacklog now s.timers s.ChClosingTimer
  ({ s with timers := r.1, ChClosingTimer := r.2.1 }, r.2.2)

/-- One alternative of the `select` in the goroutine started by `Start`,
carrying the received value where the case receives one. -/
inductive SelectCase
  | exitC
  | tickC (now : Int)
  | createdC
  | closingC

/-- Readiness of a `select` case in a given state: the exit case is ready once
the exit channel is closed; the ticker fires on its own; a channel receive is
ready when the channel is non-empty. -/
def caseReady (s : DefaultScheduler) : SelectCase → Prop
  | .exitC => s.exit = true
  | .tickC _ => True
  | .createdC => s.ChCreatedTimer ≠ []
  | .closingC => s.ChClosingTimer ≠ []

/-- One iteration of the `for { select { ... } }` loop in `Start` on the chosen
case.  The third component is whether the `for` loop continues afterwards.
The `break` in the exit case is a plain `break` inside a `select`, so it
terminates only the `select` statement and the `for` loop continues: every
case yields `true`. -/
def loopIter (s : DefaultScheduler) : SelectCase → DefaultScheduler × List FireEvent × Bool
  | .exitC => (s, [], true)
  | .tickC now =>
      let r := Cron s now
      (r.1, r.2, true)
  | .createdC =>
      match s.ChCreatedTimer with
      | [] => (s, [], true)
      | t :: rest =>
          ({ s with timers := storeTimer t.id t s.timers, ChCreatedTimer := rest }, [], true)
  | .closingC =>
      match s.ChClosingTimer with
      | [] => (s, [], true)
      | id :: rest =>
          ({ s with timers := deleteTimer id s.timers, ChClosingTimer := rest }, [], true)

/-- Running the goroutine of `Start` over a sequence of selected cases.  The
third component records whether the line after the loop — `ticker.Stop()` —
was ever reached (it is reached exactly when some iteration does not
continue). -/
def runLoop (s : DefaultScheduler) : List SelectCase → DefaultScheduler × List FireEvent × Bool
  | [] => (s, [], false)
  | c :: cs =>
      let r := loopIter s c
      if r.2.2 then
        let rr := runLoop r.1 cs
        (rr.1, r.2.1 ++ rr.2.1, rr.2.2)
      else
        (r.1, r.2.1, true)

/-- Handling the retirement channel to exhaustion: every id on the closing
channel is deleted from the timer set (the loop's `closingC` case, repeated
until the channel is empty). -/
def drainClosing (s : DefaultScheduler) : DefaultScheduler :=
  { s with timers := s.ChClosingTimer.foldl (fun ts id => deleteTimer id ts) s.timers,
           ChClosingTimer := [] }

/-! Concrete states used to evaluate the model on particular inputs. -/

/-- A live interval timer: fires every 10ns, unbounded. -/
def c1Timer : Timer :=
  { opts := { Fn := some .ok, Interval := 10, Counter := LoopForever, Condition := none },
    id := 1, createAt := 0, elapse := 10, closed := 0 }

/-- A scheduler on which `Stop` has already been called (`exit` closed) with
the timer `c1Timer` still in the set. -/
def c1State : DefaultScheduler :=
  { timerBacklog := 128, incrementID := 1, timers := [(1, c1Timer)],
    ChClosingTimer := [], ChCreatedTimer := [], exit := true }

/-- A freshly constructed scheduler with backlog 128. -/
def c2State : DefaultScheduler :=
  { timerBacklog := 128, incrementID := 0, timers := [],
    ChClosingTimer := [], ChCreatedTimer := [], exit := false }

/-- A live interval timer with 5 remaining firings. -/
def c4Timer : Timer :=
  { opts := { Fn := some .ok, Interval := 10, Counter := 5, Condition := none },
    id := 1, createAt := 0, elapse := 10, closed := 0 }

/-- Backlog 1 and a full closing channel, with `c4Timer` live in the set:
`RemoveTimer 1` must take the bounded-degradation path. -/
def c4State : DefaultScheduler :=
  { timerBacklog := 1, incrementID := 1, timers := [(1, c4Timer)],
    ChClosingTimer := [99], ChCreatedTimer := [], exit := false }

/-- An open, not yet closed timer with 7 remaining firings. -/
def c4wTimer : Timer :=
  { opts := { Fn := some .ok, Interval := 10, Counter := 7, Condition := none },
    id := 1, createAt := 0, elapse := 10, closed := 0 }

/-- Backlog 2 and an empty closing channel: `RemoveTimer 1` takes the enqueue
path. -/
def c4wState : DefaultScheduler :=
  { timerBacklog := 2, incrementID := 1, timers := [(1, c4wTimer)],
    ChClosingTimer := [], ChCreatedTimer := [], exit := false }

/-- A scheduler whose only timer has id 5 = `incrementID`: every key of the
set is bounded by the id counter. -/
def c10State : DefaultScheduler :=
  { timerBacklog := 128, incrementID := 5, timers := [(5, c1Timer)],
    ChClosingTimer := [], ChCreatedTimer := [], exit := false }

/-- Two distinct live interval timers, both due at `now = 100`. -/
def c5TimerA : Timer :=
  { opts := { Fn := some .ok, Interval := 10, Counter := 5, Condition := none },
    id := 1, createAt := 0, elapse := 10, closed := 0 }

/-- Second timer for the C5 witness state. -/
def c5TimerB : Timer :=
  { opts := { Fn := some .ok, Interval := 20, Counter := LoopForever, Condition := none },
    id := 2, createAt := 0, elapse := 20, closed := 0 }

/-- Witness state for C5: two timers with distinct keys. -/
def c5State : DefaultScheduler :=
  { timerBacklog := 128, incrementID := 2, timers := [(1, c5TimerA), (2, c5TimerB)],
    ChClosingTimer := [], ChCreatedTimer := [], exit := false }

/-- An event affecting one record while it sits in the timer set: a scan
visit at wall time `now` with closing-channel contents `ch` (the `Range` body
of `Cron`), or a producer reaching it through `RemoveTimer`, i.e. a
`stopTimer` call with channel contents `ch`. -/
inductive TimerEvt
  | scan (now : Int) (ch : List Int)
  | stopT (ch : List Int)

/-- Trajectory of a single record under a sequence of such events, collecting
each invocation event of a scan together with the scan's wall time.  The scan
visits the record under its own id, as the tick loop stores records keyed by
`t.id`. -/
def timerRun (backlog : Nat) : List TimerEvt → Timer → Timer × List (Int × FireEvent)
  | [], t => (t, [])
  | .scan now ch :: rest, t =>
      let r := cronStep backlog now ch t.id t
      let rr := timerRun backlog rest r.1
      (rr.1, (r.2.2.toList.map fun e => (now, e)) ++ rr.2)
  | .stopT ch :: rest, t =>
      let r := stopTimer backlog ch t
      timerRun backlog rest r.1

/-- A freshly admitted interval timer as built by `NewTimer`: interval 10,
`elapse` initialised to the interval, unbounded counter. -/
def c6wTimer : Timer :=
  { opts := { Fn := some .ok, Interval := 10, Counter := LoopForever, Condition := none },
    id := 1, createAt := 0, elapse := 10, closed := 0 }

/-- A record whose counter is already 0. -/
def c7Timer : Timer :=
  { opts := { Fn := some .ok, Interval := 10, Counter := 0, Condition := none },
    id := 1, createAt := 0, elapse := 10, closed := 0 }

/-- Backlog 1 with a full closing channel and the zero-counter `c7Timer` in
the set: the scan cannot enqueue its retirement. -/
def c7State : DefaultScheduler :=
  { timerBacklog := 1, incrementID := 1, timers := [(1, c7Timer)],
    ChClosingTimer := [99], ChCreatedTimer := [], exit := false }

/-- A due interval timer used as the second record of the C7 witness state. -/
def c7wTimer2 : Timer :=
  { opts := { Fn := some .ok, Interval := 10, Counter := LoopForever, Condition := none },
    id := 2, createAt := 0, elapse := 10, closed := 0 }

/-- Witness state for C7: the zero-counter `c7Timer` plus a due timer, with
free capacity on the closing channel. -/
def c7wState : DefaultScheduler :=
  { timerBacklog := 4, incrementID := 2, timers := [(1, c7Timer), (2, c7wTimer2)],
    ChClosingTimer := [], ChCreatedTimer := [], exit := false }

/-- A state whose closing channel holds id 7 while the set still holds the
record keyed 7: draining the channel must delete it. -/
def c7dState : DefaultScheduler :=
  { timerBacklog := 4, incrementID := 7, timers := [(7, c1Timer)],
    ChClosingTimer := [7], ChCreatedTimer := [], exit := false }

/-- A condition timer with finite counter 1 whose predicate always holds. -/
def c9Timer : Timer :=
  { opts := { Fn := some .ok, Interval := 10, Counter := 1,
              Condition := some fun _ => true },
    id := 1, createAt := 0, elapse := 10, closed := 0 }

/-- State holding only the condition timer `c9Timer`. -/
def c9State : DefaultScheduler :=
  { timerBacklog := 128, incrementID := 1, timers := [(1, c9Timer)],
    ChClosingTimer := [], ChCreatedTimer := [], exit := false }

/-- An interval timer with finite counter 2, due every 10ns. -/
def c9wTimer : Timer :=
  { opts := { Fn := some .ok, Interval := 10, Counter := 2, Condition := none },
    id := 1, createAt := 0, elapse := 10, closed := 0 }

/-- Replacing the callback of a record, keeping every other field. -/
def withFn (f : Option FuncBehavior) (t : Timer) : Timer :=
  { t with opts := { t.opts with Fn := f } }

/-- The record `NewTimer c2State 500 10 (some .ok) []` admits: id 1, created
at 500, `elapse` initialised to the interval 10. -/
def c6wRec : Timer :=
  { opts := { Fn := some .ok, Interval := 10, Counter := LoopForever, Condition := none },
    id := 1, createAt := 500, elapse := 10, closed := 0 }

/-! Small facts about the map operations. -/

theorem findTimer_storeTimer_self (id : Int) (t : Timer) :
    ∀ ts : List (Int × Timer), findTimer id (storeTimer id t ts) = some t := by
  intro ts
  induction ts with
  | nil => simp [storeTimer, findTimer]
  | cons p rest ih =>
      obtain ⟨k, u⟩ := p
      by_cases hk : k = id
      · simp [storeTimer, findTimer, hk]
      · simp [storeTimer, findTimer, hk, ih]

/-! ### C1 -/

/-- Every iteration of the loop in `Start` continues: the `break` in the exit
case terminates only the `select`, never the `for`. -/
theorem loopIter_continues (s : DefaultScheduler) (c : SelectCase) :
    (loopIter s c).2.2 = true := by
  cases c with
  | exitC => rfl
  | tickC now => rfl
  | createdC => cases h : s.ChCreatedTimer <;> simp [loopIter, h]
  | closingC => cases h : s.ChClosingTimer <;> simp [loopIter, h]

/-- C1: the claim says that once `Stop` closes the exit channel the Tick Loop
terminates at its next select and the ticker is released, after which no
further tick is processed.  The code does the opposite: the `break` in the
exit case only exits the `select`, so the loop never terminates, the line
`ticker.Stop()` after the loop is unreachable on every run, and a tick
arriving after `Stop` (state `c1State`, whose `exit` is already fired) is
still processed — the due timer `c1Timer` fires. -/
theorem c1_loop_never_exits_ticker_never_released :
    (∀ (s : DefaultScheduler) (cs : List SelectCase), (runLoop s cs).2.2 = false) ∧
    (∀ (s : DefaultScheduler) (c : SelectCase), (loopIter s c).2.2 = true) ∧
    c1State.exit = true ∧
    (loopIter c1State (.tickC 100)).2.1 = [⟨1, none⟩] := by
  refine ⟨?_, loopIter_continues, rfl, rfl⟩
  intro s cs
  induction cs generalizing s with
  | nil => rfl
  | cons c rest ih =>
      simp only [runLoop, loopIter_continues, if_pos]
      exact ih _

/-! ### C2 -/

/-- C2 counterexample: `NewTimer` on a fresh scheduler with interval 0 and a
nil callback still returns id 1 and admits the record on the creation
channel; no `ErrInvalidArg` occurs (the function has no error result at
all). -/
theorem c2_counterexample_no_validation :
    (NewTimer c2State 1000 0 none []).2 = 1 ∧
    ((NewTimer c2State 1000 0 none []).1.ChCreatedTimer.map Timer.id) = [1] := by
  exact ⟨rfl, rfl⟩

/-- C2 amended: `NewTimer` performs no argument validation.  On every call
with a non-positive interval or an absent (nil) callback it still allocates
the fresh id `incrementID + 1`, admits the record on the creation channel,
and returns the id; it cannot fail with `ErrInvalidArg`. -/
theorem c2_newtimer_admits_unconditionally (s : DefaultScheduler)
    (nowNs interval : Int) (fn : Option FuncBehavior) (opt : List TimerOption)
    (_h : interval ≤ 0 ∨ fn = none) :
    (NewTimer s nowNs interval fn opt).2 = s.incrementID + 1 ∧
    (NewTimer s nowNs interval fn opt).1.ChCreatedTimer.length
      = s.ChCreatedTimer.length + 1 ∧
    (NewTimer s nowNs interval fn opt).1.timers = s.timers := by
  refine ⟨rfl, ?_, rfl⟩
  simp [NewTimer]

/-- Witness for C2's amended theorem at a negative interval with a valid
callback (one of the claimed invalid-argument cases). -/
theorem c2_newtimer_admits_unconditionally_witness :
    (NewTimer c2State 1000 (-5) (some .ok) []).2 = c2State.incrementID + 1 ∧
    (NewTimer c2State 1000 (-5) (some .ok) []).1.ChCreatedTimer.length
      = c2State.ChCreatedTimer.length + 1 ∧
    (NewTimer c2State 1000 (-5) (some .ok) []).1.timers = c2State.timers :=
  c2_newtimer_admits_unconditionally c2State 1000 (-5) (some .ok) []
    (Or.inl (by decide))

/-! ### C3 -/

/-- C3 counterexample: the first `Stop` on a fresh scheduler fires the exit
signal, but a second `Stop` panics (close of an already-closed channel) —
it is neither safe nor silent. -/
theorem c3_counterexample_double_stop_panics :
    Stop c2State = .ok { c2State with exit := true } ∧
    Stop { c2State with exit := true } = .error .closeOfClosedChannel := by
  exact ⟨rfl, rfl⟩

/-- C3 amended: `Stop` fires the exit signal when it has not been fired yet,
but it is not idempotent: a second `Stop` on the same scheduler panics with a
close-of-closed-channel runtime fault. -/
theorem c3_stop_not_idempotent (s : DefaultScheduler) (h : s.exit = false) :
    Stop s = .ok { s with exit := true } ∧
    Stop { s with exit := true } = .error .closeOfClosedChannel := by
  constructor
  · simp [Stop, h]
  · simp [Stop]

/-- Witness for C3's amended theorem on a fresh scheduler. -/
theorem c3_stop_not_idempotent_witness :
    Stop c2State = .ok { c2State with exit := true } ∧
    Stop { c2State with exit := true } = .error .closeOfClosedChannel :=
  c3_stop_not_idempotent c2State rfl

/-! ### C4 -/

/-- C4 counterexample: with backlog 1 and a full closing channel
(state `c4State`), the first `RemoveTimer 1` succeeds through the
bounded-degradation path (it sets `Counter = 0` but not `closed`), and a
second `RemoveTimer 1` succeeds again instead of returning
`ErrAlreadyClosed`. -/
theorem c4_counterexample_degradation_not_idempotent :
    (RemoveTimer c4State 1).2 = .ok () ∧
    (RemoveTimer (RemoveTimer c4State 1).1 1).2 = .ok () := by
  exact ⟨rfl, rfl⟩

/-- C4 amended: `RemoveTimer` is idempotent in the claimed sense only when the
first successful call took the enqueue path (free capacity on the closing
channel, which sets `closed`): then a second call on the same id returns
`ErrAlreadyClosed` and leaves the closing channel unchanged, so the id is
enqueued for retirement only once and the record is never removed twice.
After a first success through the bounded-degradation path `closed` stays 0
and a second call succeeds again (see the counterexample). -/
theorem c4_second_remove_already_closed_on_enqueue_path
    (s : DefaultScheduler) (id : Int) (t : Timer)
    (hfind : findTimer id s.timers = some t) (hcl : t.closed = 0)
    (hcap : s.ChClosingTimer.length < s.timerBacklog) :
    (RemoveTimer s id).2 = .ok () ∧
    (RemoveTimer (RemoveTimer s id).1 id).2 = .error .ErrCloseClosedTimer ∧
    (RemoveTimer (RemoveTimer s id).1 id).1.ChClosingTimer
      = (RemoveTimer s id).1.ChClosingTimer := by
  have hns : ¬ t.closed > 0 := by omega
  have h1 : RemoveTimer s id
      = ({ s with timers := storeTimer id { t with closed := 1 } s.timers,
                  ChClosingTimer := s.ChClosingTimer ++ [t.id] }, .ok ()) := by
    simp [RemoveTimer, hfind, stopTimer, hns, hcap]
  have hfind2 : findTimer id (storeTimer id { t with closed := 1 } s.timers)
      = some { t with closed := 1 } := findTimer_storeTimer_self id _ s.timers
  refine ⟨by rw [h1], ?_, ?_⟩
  · rw [h1]
    simp [RemoveTimer, hfind2, stopTimer]
  · rw [h1]
    simp [RemoveTimer, hfind2, stopTimer]

/-- Witness for C4's amended theorem: backlog 2, empty closing channel. -/
theorem c4_second_remove_already_closed_on_enqueue_path_witness :
    (RemoveTimer c4wState 1).2 = .ok () ∧
    (RemoveTimer (RemoveTimer c4wState 1).1 1).2 = .error .ErrCloseClosedTimer ∧
    (RemoveTimer (RemoveTimer c4wState 1).1 1).1.ChClosingTimer
      = (RemoveTimer c4wState 1).1.ChClosingTimer :=
  c4_second_remove_already_closed_on_enqueue_path c4wState 1 c4wTimer rfl rfl (by decide)

/-! ### C10 -/

/-- `stopTimer` can fail only with `ErrCloseClosedTimer`, never with
`ErrTimerNotFound`. -/
theorem stopTimer_ne_notfound (backlog : Nat) (ch : List Int) (t : Timer) :
    (stopTimer backlog ch t).2.2 ≠ .error .ErrTimerNotFound := by
  unfold stopTimer
  split <;> [skip; split] <;> simp

/-- An id strictly above every key of the set is absent from it. -/
theorem findTimer_eq_none_of_forall_le (ts : List (Int × Timer)) (b : Int)
    (hb : ∀ p ∈ ts, p.1 ≤ b) (id : Int) (hid : b < id) :
    findTimer id ts = none := by
  induction ts with
  | nil => rfl
  | cons p rest ih =>
      obtain ⟨k, u⟩ := p
      have hk : k ≤ b := hb (k, u) (List.mem_cons_self _ _)
      have : ¬ k = id := by omega
      simp only [findTimer, if_neg this]
      exact ih fun q hq => hb q (List.mem_cons_of_mem _ hq)

/-- C10: `RemoveTimer` answers `ErrTimerNotFound` exactly when the id is
absent from the timer set at the moment of the call; in particular, for an id
just returned by `NewTimer` (which only enqueues the record on the creation
channel and leaves the timer set untouched), an immediate `RemoveTimer`
returns `ErrTimerNotFound` even though the record — carrying that very id —
sits on the admission channel and will become live once drained. -/
theorem c10_notfound_iff_absent (s : DefaultScheduler) (id nowNs interval : Int)
    (fn : Option FuncBehavior) (opt : List TimerOption)
    (hbound : ∀ p ∈ s.timers, p.1 ≤ s.incrementID) :
    ((RemoveTimer s id).2 = .error .ErrTimerNotFound ↔ findTimer id s.timers = none) ∧
    (NewTimer s nowNs interval fn opt).1.timers = s.timers ∧
    (RemoveTimer (NewTimer s nowNs interval fn opt).1
        (NewTimer s nowNs interval fn opt).2).2 = .error .ErrTimerNotFound ∧
    ((NewTimer s nowNs interval fn opt).1.ChCreatedTimer.getLast?).map Timer.id
      = some (NewTimer s nowNs interval fn opt).2 := by
  have hnone : findTimer (s.incrementID + 1) s.timers = none :=
    findTimer_eq_none_of_forall_le s.timers s.incrementID hbound _ (by omega)
  refine ⟨⟨?_, ?_⟩, rfl, ?_, ?_⟩
  · intro h
    cases hf : findTimer id s.timers with
    | none => rfl
    | some t =>
        exfalso
        have hr : (RemoveTimer s id).2 = (stopTimer s.timerBacklog s.ChClosingTimer t).2.2 := by
          simp [RemoveTimer, hf]
        rw [hr] at h
        exact stopTimer_ne_notfound _ _ _ h
  · intro h
    simp [RemoveTimer, h]
  · simp [RemoveTimer, NewTimer, hnone]
  · simp [NewTimer, List.getLast?_concat]

/-- Witness for C10 on `c10State` with id 3 (absent) and a fresh admission. -/
theorem c10_notfound_iff_absent_witness :
    ((RemoveTimer c10State 3).2 = .error .ErrTimerNotFound
        ↔ findTimer 3 c10State.timers = none) ∧
    (NewTimer c10State 1000 10 (some .ok) []).1.timers = c10State.timers ∧
    (RemoveTimer (NewTimer c10State 1000 10 (some .ok) []).1
        (NewTimer c10State 1000 10 (some .ok) []).2).2 = .error .ErrTimerNotFound ∧
    ((NewTimer c10State 1000 10 (some .ok) []).1.ChCreatedTimer.getLast?).map Timer.id
      = some (NewTimer c10State 1000 10 (some .ok) []).2 :=
  c10_notfound_iff_absent c10State 3 1000 10 (some .ok) [] (by decide)

/-! ### C5 -/

/-- A scan visit produces either no invocation event or exactly one, carrying
the map key it was visited under and the result of `pexec` on the record's
callback. -/
theorem cronStep_event_shape (backlog : Nat) (now : Int) (ch : List Int)
    (key : Int) (t : Timer) :
    (cronStep backlog now ch key t).2.2 = none ∨
    (cronStep backlog now ch key t).2.2 = some ⟨key, pexec key t.opts.Fn⟩ := by
  unfold cronStep
  split
  · split <;> simp
  · split
    · split <;> simp
    · split <;> simp

/-- The timer ids of the events of one scan form a sublist of the keys of the
scanned set: each record contributes at most one event, in visit order. -/
theorem cronList_event_ids_sublist (backlog : Nat) (now : Int) :
    ∀ (ts : List (Int × Timer)) (ch : List Int),
      ((cronList backlog now ts ch).2.2.map FireEvent.timerId).Sublist
        (ts.map Prod.fst) := by
  intro ts
  induction ts with
  | nil => intro ch; simp [cronList]
  | cons p rest ih =>
      intro ch
      obtain ⟨key, t⟩ := p
      simp only [cronList, List.map_cons]
      rcases cronStep_event_shape backlog now ch key t with h | h <;> rw [h]
      · simpa using (ih _).cons key
      · simpa using (ih _).cons₂ key

/-- C5: within a single scan every timer's callback is invoked at most once
(the event ids of `Cron` are duplicate-free whenever the set's keys are), and
a due interval timer (`Counter ≠ 0`, no condition, `createAt + elapse ≤ now`)
fires exactly once with its `elapse` advanced by exactly one `Interval` and a
finite positive `Counter` decremented by exactly one. -/
theorem c5_at_most_once_per_scan_and_fire_updates (s : DefaultScheduler)
    (now : Int) (backlog : Nat) (ch : List Int) (key : Int) (t : Timer)
    (hnd : (s.timers.map Prod.fst).Nodup)
    (hc : t.opts.Counter ≠ 0) (hcond : t.opts.Condition = none)
    (hdue : t.createAt + t.elapse ≤ now) :
    ((Cron s now).2.map FireEvent.timerId).Nodup ∧
    (cronStep backlog now ch key t).2.2 = some ⟨key, pexec key t.opts.Fn⟩ ∧
    (cronStep backlog now ch key t).1.elapse = t.elapse + t.opts.Interval ∧
    (cronStep backlog now ch key t).1.opts.Counter =
      (if t.opts.Counter ≠ LoopForever ∧ t.opts.Counter > 0
       then t.opts.Counter - 1 else t.opts.Counter) := by
  refine ⟨List.Nodup.sublist
      (cronList_event_ids_sublist s.timerBacklog now s.timers s.ChClosingTimer) hnd,
    ?_, ?_, ?_⟩ <;>
    simp only [cronStep, hcond, if_neg hc, if_pos hdue] <;>
    first
      | rfl
      | (split <;> simp)

/-- Witness for C5 on `c5State` at `now = 100`, visiting `c5TimerA`. -/
theorem c5_at_most_once_per_scan_and_fire_updates_witness :
    ((Cron c5State 100).2.map FireEvent.timerId).Nodup ∧
    (cronStep 128 100 [] 1 c5TimerA).2.2 = some ⟨1, pexec 1 c5TimerA.opts.Fn⟩ ∧
    (cronStep 128 100 [] 1 c5TimerA).1.elapse = c5TimerA.elapse + c5TimerA.opts.Interval ∧
    (cronStep 128 100 [] 1 c5TimerA).1.opts.Counter =
      (if c5TimerA.opts.Counter ≠ LoopForever ∧ c5TimerA.opts.Counter > 0
       then c5TimerA.opts.Counter - 1 else c5TimerA.opts.Counter) :=
  c5_at_most_once_per_scan_and_fire_updates c5State 100 128 [] 1 c5TimerA
    (by decide) (by decide) rfl (by decide)

/-! ### C7 -/

/-- A record whose counter is 0 at the start of a scan contributes no
invocation event: the `Counter == 0` branch returns before any `pexec`. -/
theorem cronStep_counter_zero_no_event (backlog : Nat) (now : Int)
    (ch : List Int) (key : Int) (t : Timer) (h0 : t.opts.Counter = 0) :
    (cronStep backlog now ch key t).2.2 = none := by
  unfold cronStep
  rw [if_pos h0]
  split <;> rfl

/-- In a scan over a set with duplicate-free keys, no invocation event carries
the id of a member record whose counter is 0. -/
theorem cronList_counter_zero_no_fire (backlog : Nat) (now : Int) :
    ∀ (ts : List (Int × Timer)) (ch : List Int) (id : Int) (t : Timer),
      (id, t) ∈ ts → (ts.map Prod.fst).Nodup → t.opts.Counter = 0 →
      ∀ e ∈ (cronList backlog now ts ch).2.2, e.timerId ≠ id := by
  intro ts
  induction ts with
  | nil => intro ch id t hmem; exact absurd hmem (List.not_mem_nil _)
  | cons p rest ih =>
      intro ch id t hmem hnd h0 e he
      obtain ⟨key, u⟩ := p
      rw [List.map_cons, List.nodup_cons] at hnd
      obtain ⟨hkey, hnd'⟩ := hnd
      simp only [cronList, List.mem_append] at he
      rcases List.mem_cons.mp hmem with heq | hmem'
      · have hkid : key = id := (congrArg Prod.fst heq).symm
        have hut : u = t := (congrArg Prod.snd heq).symm
        have hhead : (cronStep backlog now ch key u).2.2 = none :=
          cronStep_counter_zero_no_event backlog now ch key u (hut ▸ h0)
        rw [hhead] at he
        simp only [Option.toList_none, List.not_mem_nil, false_or] at he
        have hmemIds : e.timerId ∈ rest.map Prod.fst :=
          (cronList_event_ids_sublist backlog now rest _).mem
            (List.mem_map_of_mem FireEvent.timerId he)
        intro hcontra
        rw [hcontra, ← hkid] at hmemIds
        exact hkey hmemIds
      · have hid : id ∈ rest.map Prod.fst := List.mem_map_of_mem Prod.fst hmem'
        rcases he with he1 | he2
        · rcases cronStep_event_shape backlog now ch key u with hs | hs
          · rw [hs] at he1
            simp at he1
          · rw [hs] at he1
            simp only [Option.toList_some, List.mem_singleton] at he1
            subst he1
            intro hc
            have hki : key = id := hc
            rw [hki] at hkey
            exact hkey hid
        · exact ih _ id t hmem' hnd' h0 e he2

/-- Deleting an id removes it from the set. -/
theorem findTimer_deleteTimer_self (id : Int) :
    ∀ ts : List (Int × Timer), findTimer id (deleteTimer id ts) = none := by
  intro ts
  induction ts with
  | nil => rfl
  | cons p rest ih =>
      obtain ⟨k, u⟩ := p
      by_cases hk : k = id
      · simp [deleteTimer, hk, ih]
      · simp [deleteTimer, findTimer, hk, ih]

/-- Deleting any id preserves the absence of another. -/
theorem findTimer_none_deleteTimer (id j : Int) :
    ∀ ts, findTimer id ts = none → findTimer id (deleteTimer j ts) = none := by
  intro ts
  induction ts with
  | nil => intro _; rfl
  | cons p rest ih =>
      obtain ⟨k, u⟩ := p
      intro h
      by_cases hi : k = id
      · rw [findTimer, if_pos hi] at h
        cases h
      · rw [findTimer, if_neg hi] at h
        by_cases hj : k = j
        · simp only [deleteTimer, if_pos hj]
          exact ih h
        · simp only [deleteTimer, if_neg hj, findTimer, if_neg hi]
          exact ih h

/-- After folding deletions over a list of ids, an id that was in the list (or
already absent) is absent from the set. -/
theorem findTimer_foldl_delete_none (id : Int) :
    ∀ (l : List Int) (ts : List (Int × Timer)),
      (id ∈ l ∨ findTimer id ts = none) →
      findTimer id (l.foldl (fun acc j => deleteTimer j acc) ts) = none := by
  intro l
  induction l with
  | nil =>
      intro ts h
      rcases h with h | h
      · exact absurd h (List.not_mem_nil _)
      · exact h
  | cons j rest ih =>
      intro ts h
      simp only [List.foldl_cons]
      rcases h with h | h
      · rcases List.mem_cons.mp h with rfl | hmem
        · exact ih (deleteTimer id ts) (Or.inr (findTimer_deleteTimer_self id ts))
        · exact ih _ (Or.inl hmem)
      · exact ih _ (Or.inr (findTimer_none_deleteTimer id j ts h))

/-- C7 counterexample: in `c7State` (backlog 1, closing channel already full)
the zero-counter record `c7Timer` never fires during the scan — but contrary
to the claim it is not retired on the next scan: even after the scan and a
full drain of the retirement channel the record is still in the set. -/
theorem c7_counterexample_full_channel_not_retired :
    (Cron c7State 1000).2 = [] ∧
    (findTimer 1 (drainClosing (Cron c7State 1000).1).timers).isSome = true := by
  exact ⟨rfl, rfl⟩

/-- C7 amended: a record whose counter is 0 at the start of a scan never has
its callback invoked (no event of the scan carries its id), and when the
closing channel has free capacity at its visit the scan enqueues its id for
retirement and marks it closed; the record is then removed from the set when
the loop drains the retirement channel.  With no free capacity it stays in
the set and is retried on a later tick (see the counterexample). -/
theorem c7_counter_zero_never_fires_and_enqueue_retires
    (s : DefaultScheduler) (id : Int) (t : Timer) (now : Int)
    (backlog : Nat) (ch : List Int) (key : Int) (e : FireEvent)
    (s2 : DefaultScheduler) (i : Int)
    (hmem : (id, t) ∈ s.timers) (hnd : (s.timers.map Prod.fst).Nodup)
    (h0 : t.opts.Counter = 0) (hev : e ∈ (Cron s now).2)
    (hcl : t.closed = 0) (hcap : ch.length < backlog)
    (hi : i ∈ s2.ChClosingTimer) :
    e.timerId ≠ id ∧
    (cronStep backlog now ch key t).2.1 = ch ++ [t.id] ∧
    (cronStep backlog now ch key t).1.closed = 1 ∧
    (cronStep backlog now ch key t).2.2 = none ∧
    findTimer i (drainClosing s2).timers = none := by
  have hns : ¬ t.closed > 0 := by omega
  refine ⟨cronList_counter_zero_no_fire s.timerBacklog now s.timers s.ChClosingTimer
      id t hmem hnd h0 e hev, ?_, ?_,
    cronStep_counter_zero_no_event _ _ _ _ _ h0,
    findTimer_foldl_delete_none i s2.ChClosingTimer s2.timers (Or.inl hi)⟩
  · simp [cronStep, stopTimer, h0, hcap, hns]
  · simp [cronStep, stopTimer, h0, hcap, hns]

/-- Witness for C7's amended theorem on `c7wState` (capacity available) and
`c7dState` (drain). -/
theorem c7_counter_zero_never_fires_and_enqueue_retires_witness :
    (⟨2, none⟩ : FireEvent).timerId ≠ 1 ∧
    (cronStep 4 100 [] 1 c7Timer).2.1 = [] ++ [c7Timer.id] ∧
    (cronStep 4 100 [] 1 c7Timer).1.closed = 1 ∧
    (cronStep 4 100 [] 1 c7Timer).2.2 = none ∧
    findTimer 7 (drainClosing c7dState).timers = none :=
  c7_counter_zero_never_fires_and_enqueue_retires c7wState 1 c7Timer 100 4 [] 1
    ⟨2, none⟩ c7dState 7 (List.mem_cons_self _ _) (by decide) rfl (by decide) rfl
    (by decide) (by decide)

/-! ### C6 -/

/-- `stopTimer` changes only the `closed` flag or the counter: condition,
interval, creation time and elapse are untouched, and the counter is either
left alone or set to 0. -/
theorem stopTimer_preserves (backlog : Nat) (ch : List Int) (t : Timer) :
    (stopTimer backlog ch t).1.opts.Condition = t.opts.Condition ∧
    (stopTimer backlog ch t).1.opts.Interval = t.opts.Interval ∧
    (stopTimer backlog ch t).1.createAt = t.createAt ∧
    (stopTimer backlog ch t).1.elapse = t.elapse ∧
    ((stopTimer backlog ch t).1.opts.Counter = t.opts.Counter ∨
      (stopTimer backlog ch t).1.opts.Counter = 0) := by
  unfold stopTimer
  split
  · simp
  · split <;> simp

/-- One scan visit of an interval timer preserves its condition, interval and
creation time, keeps `elapse` at or above one interval (for a positive
interval), and can only produce an event when the record was due. -/
theorem cronStep_interval_invariant (backlog : Nat) (now : Int) (ch : List Int)
    (key : Int) (t : Timer) (hcond : t.opts.Condition = none)
    (hpos : 0 < t.opts.Interval) (hel : t.opts.Interval ≤ t.elapse) :
    (cronStep backlog now ch key t).1.opts.Condition = none ∧
    (cronStep backlog now ch key t).1.opts.Interval = t.opts.Interval ∧
    (cronStep backlog now ch key t).1.createAt = t.createAt ∧
    t.opts.Interval ≤ (cronStep backlog now ch key t).1.elapse ∧
    ((cronStep backlog now ch key t).2.2.isSome = true → t.createAt + t.elapse ≤ now) := by
  by_cases h0 : t.opts.Counter = 0
  · by_cases hcap : ch.length < backlog
    · have hp := stopTimer_preserves backlog ch t
      simp only [cronStep, if_pos h0, if_pos hcap]
      exact ⟨by rw [hp.1]; exact hcond, hp.2.1, hp.2.2.1,
        by rw [hp.2.2.2.1]; exact hel, by simp⟩
    · simp only [cronStep, if_pos h0, if_neg hcap]
      refine ⟨?_, ?_, ?_, ?_, ?_⟩ <;> simp [hcond, hel]
  · simp only [cronStep, if_neg h0, hcond]
    by_cases hdue : t.createAt + t.elapse ≤ now
    · simp only [if_pos hdue]
      refine ⟨?_, ?_, ?_, ?_, fun _ => hdue⟩
      · split <;> first | rfl | exact hcond
      · split <;> rfl
      · split <;> rfl
      · split <;> (show t.opts.Interval ≤ t.elapse + t.opts.Interval; omega)
    · simp only [if_neg hdue]
      refine ⟨?_, ?_, ?_, ?_, ?_⟩ <;> simp [hcond, hel]

/-- Along any per-record run of scans and `stopTimer` calls, an interval
timer whose `elapse` is at least one (positive) interval never fires before
`createAt + Interval`. -/
theorem timerRun_no_early_fire (backlog : Nat) :
    ∀ (run : List TimerEvt) (t : Timer),
      t.opts.Condition = none → 0 < t.opts.Interval → t.opts.Interval ≤ t.elapse →
      ∀ (now : Int) (e : FireEvent), (now, e) ∈ (timerRun backlog run t).2 →
        t.createAt + t.opts.Interval ≤ now := by
  intro run
  induction run with
  | nil =>
      intro t _ _ _ now e h
      exact absurd h (List.not_mem_nil _)
  | cons evt rest ih =>
      intro t hcond hpos hel now e hmemEv
      cases evt with
      | scan snow sch =>
          simp only [timerRun, List.mem_append] at hmemEv
          obtain ⟨hc1, hc2, hc3, hc4, hc5⟩ :=
            cronStep_interval_invariant backlog snow sch t.id t hcond hpos hel
          rcases hmemEv with hm | hm
          · rcases cronStep_event_shape backlog snow sch t.id t with hs | hs
            · rw [hs] at hm
              simp at hm
            · rw [hs] at hm
              simp only [Option.toList_some, List.map_cons, List.map_nil,
                List.mem_singleton] at hm
              have hnow : now = snow := congrArg Prod.fst hm
              have hdue : t.createAt + t.elapse ≤ snow := hc5 (by rw [hs]; rfl)
              rw [hnow]
              omega
          · have hr := ih (cronStep backlog snow sch t.id t).1 hc1
              (by rw [hc2]; exact hpos) (by rw [hc2]; exact hc4) now e hm
            rw [hc3, hc2] at hr
            exact hr
      | stopT sch =>
          simp only [timerRun] at hmemEv
          obtain ⟨h1, h2, h3, h4, _⟩ := stopTimer_preserves backlog sch t
          have hr := ih (stopTimer backlog sch t).1 (by rw [h1]; exact hcond)
            (by rw [h2]; exact hpos) (by rw [h2, h4]; exact hel) now e hmemEv
          rw [h3, h2] at hr
          exact hr

/-- C6: an interval timer record (`Condition` absent) admitted with a positive
interval starts with `elapse = Interval`, and along any run of scans and
cancellations no callback invocation happens at a wall time before
`createAt + Interval`; moreover every record `NewTimer` admits on the creation
channel (beyond those already queued) has `elapse` initialised to the given
interval and `createAt` to the admission instant, so its first firing is one
interval after admission. -/
theorem c6_no_early_firing (backlog : Nat) (run : List TimerEvt) (t : Timer)
    (now : Int) (e : FireEvent) (s : DefaultScheduler) (nowNs interval : Int)
    (fn : Option FuncBehavior) (u : Timer)
    (hcond : t.opts.Condition = none) (hpos : 0 < t.opts.Interval)
    (hel : t.opts.Interval ≤ t.elapse)
    (hmem : (now, e) ∈ (timerRun backlog run t).2)
    (hu : u ∈ (NewTimer s nowNs interval fn []).1.ChCreatedTimer) :
    t.createAt + t.opts.Interval ≤ now ∧
    (u ∈ s.ChCreatedTimer ∨
      (u.elapse = interval ∧ u.createAt = nowNs ∧ u.opts.Interval = interval ∧
       u.opts.Condition = none ∧ u.opts.Counter = LoopForever)) := by
  refine ⟨timerRun_no_early_fire backlog run t hcond hpos hel now e hmem, ?_⟩
  simp only [NewTimer, applyOpts, List.foldl_nil] at hu
  rcases List.mem_append.mp hu with h | h
  · exact Or.inl h
  · right
    rw [List.mem_singleton] at h
    subst h
    exact ⟨rfl, rfl, rfl, rfl, rfl⟩

/-- Witness for C6: `c6wTimer` first fires at `now = 10 = createAt + Interval`
under a single-scan run, and the record admitted by
`NewTimer c2State 500 10 (some .ok) []` is `c6wRec`. -/
theorem c6_no_early_firing_witness :
    c6wTimer.createAt + c6wTimer.opts.Interval ≤ 10 ∧
    (c6wRec ∈ c2State.ChCreatedTimer ∨
      (c6wRec.elapse = 10 ∧ c6wRec.createAt = 500 ∧ c6wRec.opts.Interval = 10 ∧
       c6wRec.opts.Condition = none ∧ c6wRec.opts.Counter = LoopForever)) :=
  c6_no_early_firing 128 [.scan 10 []] c6wTimer 10 ⟨1, none⟩ c2State 500 10
    (some .ok) c6wRec rfl (by decide) (by decide) (by decide)
    (List.mem_singleton.mpr rfl)

/-! ### C9 -/

/-- A record with counter 0 keeps counter 0 and its condition across a scan
visit. -/
theorem cronStep_counter_zero_state (backlog : Nat) (now : Int) (ch : List Int)
    (key : Int) (t : Timer) (h0 : t.opts.Counter = 0) :
    (cronStep backlog now ch key t).1.opts.Counter = 0 ∧
    (cronStep backlog now ch key t).1.opts.Condition = t.opts.Condition := by
  unfold cronStep
  rw [if_pos h0]
  split
  · have hp := stopTimer_preserves backlog ch t
    refine ⟨?_, hp.1⟩
    rcases hp.2.2.2.2 with h | h
    · rw [h]
      exact h0
    · exact h
  · exact ⟨h0, rfl⟩

/-- The interval branch of a scan visit: a due record with nonzero counter
and no condition fires once, keeps no condition, and decrements a finite
positive counter. -/
theorem cronStep_fire_facts (backlog : Nat) (now : Int) (ch : List Int)
    (key : Int) (t : Timer) (hc : t.opts.Counter ≠ 0)
    (hcond : t.opts.Condition = none) (hdue : t.createAt + t.elapse ≤ now) :
    (cronStep backlog now ch key t).2.2 = some ⟨key, pexec key t.opts.Fn⟩ ∧
    (cronStep backlog now ch key t).1.opts.Condition = none ∧
    (cronStep backlog now ch key t).1.opts.Counter =
      (if t.opts.Counter ≠ LoopForever ∧ t.opts.Counter > 0
       then t.opts.Counter - 1 else t.opts.Counter) := by
  simp only [cronStep, if_neg hc, hcond, if_pos hdue]
  refine ⟨?_, ?_, ?_⟩
  · first | rfl | trivial
  · split <;> first | rfl | exact hcond
  · split <;> simp_all

/-- A quiescent (not due) interval record is untouched by the visit. -/
theorem cronStep_not_due (backlog : Nat) (now : Int) (ch : List Int)
    (key : Int) (t : Timer) (hc : t.opts.Counter ≠ 0)
    (hcond : t.opts.Condition = none)
    (hnd : ¬ t.createAt + t.elapse ≤ now) :
    cronStep backlog now ch key t = (t, ch, none) := by
  simp only [cronStep, if_neg hc, hcond, if_neg hnd]

/-- Along any per-record run, an interval timer (no condition) with a
non-negative counter fires at most counter-many times. -/
theorem timerRun_fires_le_counter (backlog : Nat) :
    ∀ (run : List TimerEvt) (t : Timer),
      t.opts.Condition = none → 0 ≤ t.opts.Counter →
      ((timerRun backlog run t).2.length : Int) ≤ t.opts.Counter := by
  intro run
  induction run with
  | nil =>
      intro t _ hc
      simpa [timerRun] using hc
  | cons evt rest ih =>
      intro t hcond hc
      cases evt with
      | scan snow sch =>
          by_cases h0 : t.opts.Counter = 0
          · have hev := cronStep_counter_zero_no_event backlog snow sch t.id t h0
            obtain ⟨hz, hcnd⟩ := cronStep_counter_zero_state backlog snow sch t.id t h0
            have hrec := ih (cronStep backlog snow sch t.id t).1
              (by rw [hcnd]; exact hcond) hz.ge
            rw [hz] at hrec
            simp only [timerRun, hev, Option.toList_none, List.map_nil, List.nil_append]
            omega
          · by_cases hdue : t.createAt + t.elapse ≤ snow
            · have hcnt : t.opts.Counter ≠ LoopForever ∧ t.opts.Counter > 0 := by
                unfold LoopForever
                omega
              obtain ⟨hev, hcnd2, hcntr⟩ :=
                cronStep_fire_facts backlog snow sch t.id t h0 hcond hdue
              rw [if_pos hcnt] at hcntr
              have hge : 0 ≤ (cronStep backlog snow sch t.id t).1.opts.Counter := by
                omega
              have hrec := ih (cronStep backlog snow sch t.id t).1 hcnd2 hge
              rw [hcntr] at hrec
              simp only [timerRun, hev, Option.toList_some, List.map_cons, List.map_nil,
                List.singleton_append, List.length_cons]
              push_cast
              omega
            · have hstep := cronStep_not_due backlog snow sch t.id t h0 hcond hdue
              simp only [timerRun, hstep, Option.toList_none, List.map_nil,
                List.nil_append]
              exact ih t hcond hc
      | stopT sch =>
          obtain ⟨h1, _, _, _, h5⟩ := stopTimer_preserves backlog sch t
          have hge : 0 ≤ (stopTimer backlog sch t).1.opts.Counter := by
            rcases h5 with h | h <;> omega
          have hle : (stopTimer backlog sch t).1.opts.Counter ≤ t.opts.Counter := by
            rcases h5 with h | h <;> omega
          have hrec := ih (stopTimer backlog sch t).1 (by rw [h1]; exact hcond) hge
          simp only [timerRun]
          omega

/-- C9 counterexample: the condition timer `c9Timer` carries the finite
counter 1, yet two ticks of the loop invoke its callback twice — the
condition branch never consumes the counter, so the claimed bound fails for
timers that carry a condition predicate. -/
theorem c9_counterexample_condition_timer_exceeds_counter :
    c9Timer.opts.Counter = 1 ∧
    (runLoop c9State [.tickC 10, .tickC 20]).2.1.length = 2 := by
  exact ⟨rfl, rfl⟩

/-- C9 amended: for interval timers (no condition predicate) admitted with a
finite counter n ≥ 0, the total number of callback invocations over any run
of scans and cancellations is at most n; condition timers do not consume
their counter and can exceed it (see the counterexample). -/
theorem c9_finite_counter_bounds_interval_fires (backlog : Nat)
    (run : List TimerEvt) (t : Timer) (n : Nat)
    (hcond : t.opts.Condition = none) (hc : t.opts.Counter = (n : Int)) :
    (timerRun backlog run t).2.length ≤ n := by
  have h := timerRun_fires_le_counter backlog run t hcond (by omega)
  rw [hc] at h
  exact_mod_cast h

/-- Witness for C9's amended theorem: `c9wTimer` (counter 2) fires at most
twice over three due scans. -/
theorem c9_finite_counter_bounds_interval_fires_witness :
    (timerRun 128 [.scan 10 [], .scan 20 [], .scan 30 []] c9wTimer).2.length ≤ 2 :=
  c9_finite_counter_bounds_interval_fires 128 [.scan 10 [], .scan 20 [], .scan 30 []]
    c9wTimer 2 rfl rfl

/-! ### C8 -/

/-- Replacing the callback twice keeps only the outer replacement. -/
theorem withFn_withFn (f g : Option FuncBehavior) (t : Timer) :
    withFn f (withFn g t) = withFn f t := rfl

/-- Restoring the original callback after erasing it gives the record back. -/
theorem withFn_self (t : Timer) : withFn t.opts.Fn (withFn none t) = t := rfl

/-- A scan visit inspects the callback only inside `pexec`: visiting a record
with a replaced callback gives the same state updates and the same channel,
and its event (if any) merely carries the `pexec` log of the replaced
callback. -/
theorem cronStep_withFn (backlog : Nat) (now : Int) (ch : List Int) (key : Int)
    (t : Timer) (f : Option FuncBehavior) :
    cronStep backlog now ch key (withFn f t) =
      (withFn f (cronStep backlog now ch key t).1,
       (cronStep backlog now ch key t).2.1,
       (cronStep backlog now ch key t).2.2.map fun e => ⟨e.timerId, pexec key f⟩) := by
  by_cases h0 : t.opts.Counter = 0
  · by_cases hcap : ch.length < backlog
    · by_cases hcl : t.closed > 0
      · simp [cronStep, stopTimer, withFn, h0, hcap, hcl]
      · simp [cronStep, stopTimer, withFn, h0, hcap, hcl]
    · simp [cronStep, stopTimer, withFn, h0, hcap]
  · cases hcnd : t.opts.Condition with
    | some cond =>
        by_cases hcb : cond now = true
        · simp [cronStep, withFn, h0, hcnd, hcb]
        · simp [cronStep, withFn, h0, hcnd, hcb]
    | none =>
        by_cases hdue : t.createAt + t.elapse ≤ now
        · by_cases hcnt : t.opts.Counter ≠ LoopForever ∧ t.opts.Counter > 0
          · simp [cronStep, withFn, h0, hcnd, hdue, hcnt]
          · simp [cronStep, withFn, h0, hcnd, hdue, hcnt]
        · simp [cronStep, withFn, h0, hcnd, hdue]

/-- The scan never removes entries: the keys of the set after `Range` are the
keys before it. -/
theorem cronList_keys (backlog : Nat) (now : Int) :
    ∀ (ts : List (Int × Timer)) (ch : List Int),
      (cronList backlog now ts ch).1.map Prod.fst = ts.map Prod.fst := by
  intro ts
  induction ts with
  | nil => intro ch; rfl
  | cons p rest ih =>
      intro ch
      obtain ⟨key, t⟩ := p
      simp only [cronList, List.map_cons, List.cons.injEq]
      exact ⟨trivial, ih _⟩

/-- A whole scan depends on the records' callbacks only through the events'
log fields: two sets equal after erasing every callback produce the same
channel, invoke the same timers in the same order, and end in states that are
again equal after erasing every callback. -/
theorem cronList_fn_irrelevant (backlog : Nat) (now : Int) :
    ∀ (ts1 ts2 : List (Int × Timer)) (ch : List Int),
      ts1.map (fun p => (p.1, withFn none p.2)) = ts2.map (fun p => (p.1, withFn none p.2)) →
      (cronList backlog now ts1 ch).2.1 = (cronList backlog now ts2 ch).2.1 ∧
      (cronList backlog now ts1 ch).2.2.map FireEvent.timerId
        = (cronList backlog now ts2 ch).2.2.map FireEvent.timerId ∧
      (cronList backlog now ts1 ch).1.map (fun p => (p.1, withFn none p.2))
        = (cronList backlog now ts2 ch).1.map (fun p => (p.1, withFn none p.2)) := by
  intro ts1
  induction ts1 with
  | nil =>
      intro ts2 ch h
      cases ts2 with
      | nil => exact ⟨rfl, rfl, rfl⟩
      | cons q rest2 => simp at h
  | cons p rest ih =>
      intro ts2 ch h
      cases ts2 with
      | nil => simp at h
      | cons q rest2 =>
          obtain ⟨k1, u1⟩ := p
          obtain ⟨k2, u2⟩ := q
          simp only [List.map_cons, List.cons.injEq, Prod.mk.injEq] at h
          obtain ⟨⟨hk, hu⟩, hrest⟩ := h
          subst hk
          have hcs1 := cronStep_withFn backlog now ch k1 (withFn none u1) u1.opts.Fn
          have hcs2 := cronStep_withFn backlog now ch k1 (withFn none u2) u2.opts.Fn
          rw [withFn_self] at hcs1 hcs2
          rw [hu] at hcs1
          obtain ⟨ih1, ih2, ih3⟩ :=
            ih rest2 (cronStep backlog now ch k1 (withFn none u2)).2.1 hrest
          simp only [cronList, hcs1, hcs2]
          refine ⟨ih1, ?_, ?_⟩
          · simp only [List.map_append, ih2]
            congr 1
            cases (cronStep backlog now ch k1 (withFn none u2)).2.2 <;> rfl
          · simp only [List.map_cons, ih3, withFn_withFn]

/-- C8: panic containment.  In a scan over `l1 ++ [(k, bad)] ++ l2`, where
`bad` is a record whose callback panics with value `v`, the guard `pexec`
recovers the panic and logs it with the timer id `k` and the value `v`; the
scan produces exactly the same sequence of invoked timer ids, the same
closing channel and (up to the stored callback) the same post-scan states as
if the callback returned normally, so no other timer of the same tick — nor
of any future tick — is prevented from firing; the scan removes no entry, so
the faulty record stays in the set; and the tick case of the loop continues
afterwards. -/
theorem c8_panic_containment (backlog : Nat) (now : Int) (ch : List Int)
    (l1 l2 : List (Int × Timer)) (k : Int) (t : Timer) (v : Nat)
    (s : DefaultScheduler) :
    pexec k (some (.panics v)) = some ⟨k, v⟩ ∧
    (cronList backlog now (l1 ++ [(k, withFn (some (.panics v)) t)] ++ l2) ch).2.1
      = (cronList backlog now (l1 ++ [(k, withFn (some .ok) t)] ++ l2) ch).2.1 ∧
    (cronList backlog now (l1 ++ [(k, withFn (some (.panics v)) t)] ++ l2) ch).2.2.map
        FireEvent.timerId
      = (cronList backlog now (l1 ++ [(k, withFn (some .ok) t)] ++ l2) ch).2.2.map
        FireEvent.timerId ∧
    (cronList backlog now (l1 ++ [(k, withFn (some (.panics v)) t)] ++ l2) ch).1.map
        Prod.fst
      = (l1 ++ [(k, withFn (some (.panics v)) t)] ++ l2).map Prod.fst ∧
    (cronList backlog now (l1 ++ [(k, withFn (some (.panics v)) t)] ++ l2) ch).1.map
        (fun p => (p.1, withFn none p.2))
      = (cronList backlog now (l1 ++ [(k, withFn (some .ok) t)] ++ l2) ch).1.map
        (fun p => (p.1, withFn none p.2)) ∧
    (loopIter s (.tickC now)).2.2 = true := by
  have herase :
      (l1 ++ [(k, withFn (some (.panics v)) t)] ++ l2).map (fun p => (p.1, withFn none p.2))
        = (l1 ++ [(k, withFn (some .ok) t)] ++ l2).map (fun p => (p.1, withFn none p.2)) := by
    simp [withFn_withFn]
  obtain ⟨h1, h2, h3⟩ := cronList_fn_irrelevant backlog now
    (l1 ++ [(k, withFn (some (.panics v)) t)] ++ l2)
    (l1 ++ [(k, withFn (some .ok) t)] ++ l2) ch herase
  exact ⟨rfl, h1, h2, cronList_keys backlog now _ ch, h3, rfl⟩

end Scheduler
